import Mathlib

/-!
Shallow embedding of `src/movie-recommendation.py`, a PySpark item-item
cosine-similarity pipeline, as functions over Lean lists.

DataFrames become lists of rows; Spark's `groupBy`/`agg` becomes grouping by
the list of distinct keys (`dedup`) with per-key aggregation over the rows
matching that key; the self-join becomes a `flatMap`/`filter`; floating-point
doubles are modelled as exact real numbers (`ℝ`), integer columns as `ℤ`,
and Spark's `avg` (whose comparison against the quality threshold is all the
code uses) as an exact rational mean (`ℚ`).  `collect()[0]` on a possibly
empty result is modelled as `Option` via `head?`.
-/

namespace MovieRec

/-- A row of the ratings DataFrame after `select("userID", "movieID", "rating")`
(src line 108); the timestamp column is dropped before any logic uses it. -/
structure Rating where
  userID : Int
  movieID : Int
  rating : Int
deriving Repr, DecidableEq

/-- A row of the `moviePairs` DataFrame (src lines 111-122). -/
structure PairRow where
  movie1 : Int
  movie2 : Int
  rating1 : Int
  rating2 : Int
deriving Repr, DecidableEq

/-- A row of the similarity DataFrame returned by `computeCosineSimilarity`
(src line 37: `select("movie1", "movie2", "score", "numPairs")`). -/
structure SimRow where
  movie1 : Int
  movie2 : Int
  score : Real
  numPairs : Nat

/-- A row of the `movieNames` DataFrame (src lines 78-81). -/
structure MovieName where
  movieID : Int
  movieTitle : String
deriving Repr, DecidableEq

/-! ## Quality Filter: `filterGoodMovies` (src lines 56-69) -/

/-- The distinct movie IDs of a ratings list: the keys of
`movies.groupBy("movieID")` (src line 67). -/
def movieIDs (movies : List Rating) : List Int :=
  (movies.map (fun r => r.movieID)).dedup

/-- The ratings given to movie `m`: the rows of the group keyed by `m`. -/
def ratingsOf (movies : List Rating) (m : Int) : List Int :=
  (movies.filter (fun r => r.movieID == m)).map (fun r => r.rating)

/-- `func.avg("rating")` for the group keyed by `m` (src line 67), modelled
as the exact rational mean of the group's ratings. -/
def avgRating (movies : List Rating) (m : Int) : Rat :=
  ((ratingsOf movies m).map (fun x : Int => (x : Rat))).sum / ((ratingsOf movies m).length : Rat)

/-- `filterGoodMovies` (src lines 56-69): the `(movieID, avgRating)` rows,
one per distinct movie, kept when `avgRating >= threshold`.  The source's
default threshold is 3.0. -/
def filterGoodMovies (movies : List Rating) (threshold : Rat) : List (Int × Rat) :=
  ((movieIDs movies).map (fun m => (m, avgRating movies m))).filter
    (fun p => threshold ≤ p.2)

/-- `movies.join(goodMovies, "movieID")` (src line 108): the inner join keeps
exactly the rating rows whose movieID occurs in `goodMovies` (whose movieIDs
are distinct, so no row is duplicated). -/
def qualifiedRatings (movies : List Rating) (threshold : Rat) : List Rating :=
  movies.filter (fun r => (filterGoodMovies movies threshold).any (fun p => p.1 == r.movieID))

/-! ## Co-Rating Pair Generator: `moviePairs` (src lines 111-122) -/

/-- The self-join of `ratings` with itself on
`ratings2.userID == ratings1.userID && ratings2.movieID > ratings1.movieID`,
projected to `(movie1, movie2, rating1, rating2)` (src lines 111-122). -/
def moviePairs (ratings : List Rating) : List PairRow :=
  ratings.flatMap (fun r1 =>
    (ratings.filter (fun r2 =>
        r2.userID == r1.userID && decide (r1.movieID < r2.movieID))).map
      (fun r2 => ⟨r1.movieID, r2.movieID, r1.rating, r2.rating⟩))

/-! ## Similarity Aggregator: `computeCosineSimilarity` (src lines 5-39) -/

/-- The rows of `data` falling into the `groupBy("movie1", "movie2")` group
keyed by `(m1, m2)` (src line 25). -/
def pairObs (data : List PairRow) (m1 m2 : Int) : List PairRow :=
  data.filter (fun r => r.movie1 == m1 && r.movie2 == m2)

/-- `func.sum("xy")` for the group keyed by `(m1, m2)`, where
`xy = rating1 * rating2` (src lines 21 and 27). -/
def numerator (data : List PairRow) (m1 m2 : Int) : Int :=
  ((pairObs data m1 m2).map (fun r => r.rating1 * r.rating2)).sum

/-- `func.sum("xx")` for the group keyed by `(m1, m2)`, where
`xx = rating1 * rating1` (src lines 19 and 28). -/
def sumXX (data : List PairRow) (m1 m2 : Int) : Int :=
  ((pairObs data m1 m2).map (fun r => r.rating1 * r.rating1)).sum

/-- `func.sum("yy")` for the group keyed by `(m1, m2)`, where
`yy = rating2 * rating2` (src lines 20 and 28). -/
def sumYY (data : List PairRow) (m1 m2 : Int) : Int :=
  ((pairObs data m1 m2).map (fun r => r.rating2 * r.rating2)).sum

/-- `func.count("xy")` for the group keyed by `(m1, m2)` (src line 29). -/
def numPairs (data : List PairRow) (m1 m2 : Int) : Nat :=
  (pairObs data m1 m2).length

/-- `sqrt(sum(xx)) * sqrt(sum(yy))` (src line 28). -/
noncomputable def denominator (data : List PairRow) (m1 m2 : Int) : Real :=
  Real.sqrt (sumXX data m1 m2) * Real.sqrt (sumYY data m1 m2)

/-- The `score` column (src lines 33-37): `numerator / denominator` when the
denominator is nonzero, otherwise 0. -/
noncomputable def score (data : List PairRow) (m1 m2 : Int) : Real :=
  if denominator data m1 m2 ≠ 0 then
    (numerator data m1 m2 : Real) / denominator data m1 m2
  else 0

/-- The distinct `(movie1, movie2)` keys of `data`: the groups formed by
`groupBy("movie1", "movie2")` (src line 25). -/
def simKeys (data : List PairRow) : List (Int × Int) :=
  (data.map (fun r => (r.movie1, r.movie2))).dedup

/-- `computeCosineSimilarity` (src lines 5-39): one output row per distinct
`(movie1, movie2)` group, carrying the group's score and observation count. -/
noncomputable def computeCosineSimilarity (data : List PairRow) : List SimRow :=
  (simKeys data).map (fun k => ⟨k.1, k.2, score data k.1 k.2, numPairs data k.1 k.2⟩)

/-! ## Name Resolver: `getMovieName` (src lines 41-54) -/

/-- `getMovieName` (src lines 41-54): filter the catalog to rows whose
`movieID` equals `movieId`, project the title, take element 0.  The source's
`collect()[0]` raises an IndexError when the filtered result is empty; the
fallible indexing is modelled as `Option` via `head?`. -/
def getMovieName (movieNames : List MovieName) (movieId : Int) : Option String :=
  ((movieNames.filter (fun r => r.movieID == movieId)).map (fun r => r.movieTitle)).head?

/-! ## Query Engine (src lines 136-147) -/

/-- `filteredResults` (src lines 140-144): rows touching `movieID` whose
score strictly exceeds `scoreThreshold` and whose `numPairs` strictly exceeds
`coOccurrenceThreshold` (the source compares the integer count against the
float 50.0, hence the cast).  The source's defaults are 0.97 and 50.0. -/
noncomputable def filteredResults (sims : List SimRow) (movieID : Int)
    (scoreThreshold coOccurrenceThreshold : Real) : List SimRow :=
  sims.filter (fun r =>
    decide (r.movie1 = movieID ∨ r.movie2 = movieID) &&
    decide (scoreThreshold < r.score) &&
    decide (coOccurrenceThreshold < (r.numPairs : Real)))

/-- `results` (src line 147): sort the filtered rows by score descending and
take the first 10. -/
noncomputable def results (sims : List SimRow) (movieID : Int)
    (scoreThreshold coOccurrenceThreshold : Real) : List SimRow :=
  ((filteredResults sims movieID scoreThreshold coOccurrenceThreshold).mergeSort
    (fun a b => decide (b.score ≤ a.score))).take 10

/-! ## Query phase driver (src lines 128-155) -/

/-- The three observable outcomes of the query phase: the invalid-input path
(src lines 130-134), the results path (src lines 149-153) and the no-results
path (src lines 154-155). -/
inductive QueryOutcome where
  | invalidInput : QueryOutcome
  | found : List SimRow → QueryOutcome
  | noResults : QueryOutcome

/-- The query phase (src lines 128-155) over the cached similarity rows.
The interactive `int(movieID)` parse is modelled by an `Option Int` input:
`none` is a non-numeric string (the `ValueError` branch, src lines 132-134,
which reports invalid input and exits before any query runs); `some id` is a
successfully parsed ID, for which the engine runs with the source's hardcoded
thresholds and the `if results:` branch (src lines 149-155) picks the
outcome. -/
noncomputable def runQuery (sims : List SimRow) (input : Option Int) : QueryOutcome :=
  match input with
  | none => QueryOutcome.invalidInput
  | some movieID =>
      let res := results sims movieID 0.97 50.0
      if res.isEmpty then QueryOutcome.noResults else QueryOutcome.found res

/-! ## Helper lemmas -/

/-- Membership in the aggregator output, characterised by the group keys. -/
lemma mem_computeCosineSimilarity {data : List PairRow} {row : SimRow} :
    row ∈ computeCosineSimilarity data ↔
      ∃ k, k ∈ simKeys data ∧
        row = ⟨k.1, k.2, score data k.1 k.2, numPairs data k.1 k.2⟩ := by
  simp only [computeCosineSimilarity, List.mem_map]
  constructor
  · rintro ⟨k, hk, rfl⟩
    exact ⟨k, hk, rfl⟩
  · rintro ⟨k, hk, rfl⟩
    exact ⟨k, hk, rfl⟩

/-- The group keys are exactly the `(movie1, movie2)` pairs occurring in the
input. -/
lemma mem_simKeys {data : List PairRow} {k : Int × Int} :
    k ∈ simKeys data ↔ ∃ r ∈ data, (r.movie1, r.movie2) = k := by
  simp [simKeys, List.mem_dedup, List.mem_map]

/-- A key of the aggregation has at least one row in its group. -/
lemma pairObs_ne_nil_of_mem_simKeys {data : List PairRow} {k : Int × Int}
    (hk : k ∈ simKeys data) : pairObs data k.1 k.2 ≠ [] := by
  rcases mem_simKeys.mp hk with ⟨r, hr, hkey⟩
  intro hnil
  have hmem : r ∈ pairObs data k.1 k.2 := by
    simp only [pairObs, List.mem_filter, Bool.and_eq_true, beq_iff_eq]
    exact ⟨hr, by rw [← hkey], by rw [← hkey]⟩
  rw [hnil] at hmem
  exact (List.not_mem_nil r) hmem

/-! ## C4 -/

/-- C4: every row emitted by the Similarity Aggregator has support
(`numPairs`) at least 1, and its co-rating observation group is nonempty —
so a pair with zero co-rating observations never appears in the output. -/
theorem computeCosineSimilarity_support_pos (data : List PairRow) (row : SimRow)
    (hrow : row ∈ computeCosineSimilarity data) :
    1 ≤ row.numPairs ∧ pairObs data row.movie1 row.movie2 ≠ [] := by
  rcases mem_computeCosineSimilarity.mp hrow with ⟨k, hk, rfl⟩
  have hne : pairObs data k.1 k.2 ≠ [] := pairObs_ne_nil_of_mem_simKeys hk
  refine ⟨?_, hne⟩
  have := List.length_pos.mpr hne
  simpa [numPairs] using this

/-- C4 witness: on the one-observation input `[(1, 2, 5, 5)]` the emitted row
for the pair `(1, 2)` has support at least 1 and a nonempty group. -/
theorem computeCosineSimilarity_support_pos_witness :
    1 ≤ (⟨1, 2, score [⟨1, 2, 5, 5⟩] 1 2, numPairs [⟨1, 2, 5, 5⟩] 1 2⟩ : SimRow).numPairs ∧
      pairObs [⟨1, 2, 5, 5⟩] (1 : Int) (2 : Int) ≠ [] :=
  computeCosineSimilarity_support_pos [⟨1, 2, 5, 5⟩]
    ⟨1, 2, score [⟨1, 2, 5, 5⟩] 1 2, numPairs [⟨1, 2, 5, 5⟩] 1 2⟩
    (mem_computeCosineSimilarity.mpr ⟨(1, 2), by decide, rfl⟩)

/-! ## C5 -/

/-- C5: the Quality Filter keeps exactly the movie IDs occurring in the input
whose unweighted arithmetic mean rating is at least the threshold.  (The
embedding is a total function on lists, so there is no error condition.) -/
theorem filterGoodMovies_exact (movies : List Rating) (t : Rat) (m : Int) :
    m ∈ (filterGoodMovies movies t).map (fun p => p.1) ↔
      (∃ r ∈ movies, r.movieID = m) ∧
        t ≤ ((movies.filter (fun r => r.movieID == m)).map (fun r => (r.rating : Rat))).sum /
              ((movies.filter (fun r => r.movieID == m)).length : Rat) := by
  have havg : avgRating movies m =
      ((movies.filter (fun r => r.movieID == m)).map (fun r => (r.rating : Rat))).sum /
        ((movies.filter (fun r => r.movieID == m)).length : Rat) := by
    unfold avgRating ratingsOf
    rw [List.map_map, List.length_map]
    rfl
  constructor
  · intro hm
    rcases List.mem_map.mp hm with ⟨p, hp, hfst⟩
    rcases List.mem_filter.mp hp with ⟨hpmem, hple⟩
    rcases List.mem_map.mp hpmem with ⟨mid, hmid, hpeq⟩
    have hmid' : mid = m := by rw [← hfst, ← hpeq]
    subst hmid'
    have hmem : ∃ r ∈ movies, r.movieID = mid := by
      simpa [movieIDs, List.mem_dedup, List.mem_map, eq_comm] using hmid
    refine ⟨hmem, ?_⟩
    have : t ≤ p.2 := by simpa using (of_decide_eq_true hple)
    rw [← hpeq] at this
    simpa [havg] using this
  · rintro ⟨⟨r, hr, hrm⟩, ht⟩
    refine List.mem_map.mpr ⟨(m, avgRating movies m), ?_, rfl⟩
    refine List.mem_filter.mpr ⟨?_, ?_⟩
    · exact List.mem_map.mpr ⟨m, by
        simp only [movieIDs, List.mem_dedup, List.mem_map]
        exact ⟨r, hr, hrm⟩, rfl⟩
    · exact decide_eq_true (by simpa [havg] using ht)

/-! ## C9 -/

/-- C9: raising the quality threshold never adds a movie — the qualified set
at the higher threshold is contained in the qualified set at the lower one. -/
theorem filterGoodMovies_threshold_antitone (movies : List Rating) (t1 t2 : Rat)
    (h : t1 ≤ t2) (m : Int)
    (hm : m ∈ (filterGoodMovies movies t2).map (fun p => p.1)) :
    m ∈ (filterGoodMovies movies t1).map (fun p => p.1) := by
  rcases List.mem_map.mp hm with ⟨p, hp, hfst⟩
  rcases List.mem_filter.mp hp with ⟨hpmem, hple⟩
  refine List.mem_map.mpr ⟨p, List.mem_filter.mpr ⟨hpmem, ?_⟩, hfst⟩
  have h2 : t2 ≤ p.2 := of_decide_eq_true hple
  exact decide_eq_true (le_trans h h2)

/-- C9 witness: with the single rating (user 1, movie 10, rating 4), movie 10
qualifies at threshold 3, hence also at threshold 2. -/
theorem filterGoodMovies_threshold_antitone_witness :
    (10 : Int) ∈ (filterGoodMovies [⟨1, 10, 4⟩] 2).map (fun p => p.1) :=
  filterGoodMovies_threshold_antitone [⟨1, 10, 4⟩] 2 3 (by norm_num) 10 (by
    have h1 : filterGoodMovies [⟨1, 10, 4⟩] 3 = [(10, 4)] := by
      norm_num [filterGoodMovies, movieIDs, avgRating, ratingsOf, List.dedup]
    rw [h1]
    simp)

/-! ## C10 -/

/-- C10: the name lookup succeeds only when a catalog row with the requested
`movieID` exists — it fails (the out-of-range index, modelled as `none`)
exactly when no row matches, never returning a default or empty title, and a
successful lookup returns the title of a matching catalog row. -/
theorem getMovieName_spec (movieNames : List MovieName) (movieId : Int) :
    (getMovieName movieNames movieId = none ↔ ∀ r ∈ movieNames, r.movieID ≠ movieId) ∧
    (∀ t, getMovieName movieNames movieId = some t →
      ∃ r ∈ movieNames, r.movieID = movieId ∧ r.movieTitle = t) := by
  constructor
  · rw [getMovieName, List.head?_eq_none_iff, List.map_eq_nil_iff, List.filter_eq_nil_iff]
    simp
  · intro t ht
    have hmem : t ∈ (movieNames.filter (fun r => r.movieID == movieId)).map
        (fun r => r.movieTitle) := List.mem_of_mem_head? ht
    rcases List.mem_map.mp hmem with ⟨r, hr, hrt⟩
    rcases List.mem_filter.mp hr with ⟨hrmem, hrid⟩
    exact ⟨r, hrmem, by simpa using hrid, hrt⟩

/-- C10 witness: on the one-row catalog `[(3, "A")]`, looking up ID 3 returns
the title of that row. -/
theorem getMovieName_spec_witness :
    ∃ r ∈ [(⟨3, "A"⟩ : MovieName)], r.movieID = 3 ∧ r.movieTitle = "A" :=
  (getMovieName_spec [⟨3, "A"⟩] 3).2 "A" rfl

/-- Counting the occurrences of a fixed key in a duplicate-free list of keys
that contains it gives exactly one. -/
lemma countP_key_eq_one {l : List (Int × Int)} (hnd : l.Nodup) {m1 m2 : Int}
    (hmem : (m1, m2) ∈ l) :
    l.countP (fun k => k.1 == m1 && k.2 == m2) = 1 := by
  induction l with
  | nil => cases hmem
  | cons a t ih =>
      rw [List.countP_cons]
      rcases List.nodup_cons.mp hnd with ⟨hat, hndt⟩
      by_cases ha : a = (m1, m2)
      · subst ha
        have h0 : t.countP (fun k => k.1 == m1 && k.2 == m2) = 0 := by
          rw [List.countP_eq_zero]
          intro k hk
          simp only [Bool.and_eq_true, beq_iff_eq]
          rintro ⟨h1, h2⟩
          exact hat (by rwa [show k = (m1, m2) from Prod.ext h1 h2] at hk)
        simp [h0]
      · have hpa : (a.1 == m1 && a.2 == m2) = false := by
          rcases a with ⟨a1, a2⟩
          simp only [Bool.and_eq_false_iff, beq_eq_false_iff_ne, ne_eq]
          by_contra hc
          push_neg at hc
          exact ha (Prod.ext hc.1 hc.2)
        have hmt : (m1, m2) ∈ t := by
          rcases List.mem_cons.mp hmem with h | h
          · exact absurd h.symm ha
          · exact h
        simp [hpa, ih hndt hmt]

/-! ## C1 -/

/-- C1: for every `(movie1, movie2)` pair occurring in the co-rating
observation set, the Similarity Aggregator emits exactly one row keyed by
that pair, and that row's support is the count of the pair's observations
while its score is `numerator / (sqrt (sum of rating1 squared) * sqrt (sum of
rating2 squared))` over the same observations when that denominator is
nonzero, and `0` otherwise, with `numerator` the sum of `rating1 * rating2`. -/
theorem computeCosineSimilarity_one_row_per_pair (data : List PairRow) (m1 m2 : Int)
    (h : (m1, m2) ∈ data.map (fun r => (r.movie1, r.movie2))) :
    (computeCosineSimilarity data).countP
        (fun row => row.movie1 == m1 && row.movie2 == m2) = 1 ∧
    ∀ row ∈ computeCosineSimilarity data, row.movie1 = m1 → row.movie2 = m2 →
      row.numPairs = (pairObs data m1 m2).length ∧
      row.score =
        (if Real.sqrt ((((pairObs data m1 m2).map (fun r => r.rating1 * r.rating1)).sum : Int) : Real) *
            Real.sqrt ((((pairObs data m1 m2).map (fun r => r.rating2 * r.rating2)).sum : Int) : Real) ≠ 0
         then ((((pairObs data m1 m2).map (fun r => r.rating1 * r.rating2)).sum : Int) : Real) /
              (Real.sqrt ((((pairObs data m1 m2).map (fun r => r.rating1 * r.rating1)).sum : Int) : Real) *
               Real.sqrt ((((pairObs data m1 m2).map (fun r => r.rating2 * r.rating2)).sum : Int) : Real))
         else 0) := by
  constructor
  · rw [computeCosineSimilarity, List.countP_map]
    have hkey : (m1, m2) ∈ simKeys data := by
      rw [simKeys, List.mem_dedup]
      exact h
    have hnd : (simKeys data).Nodup := List.nodup_dedup _
    have hcongr : List.countP
        ((fun row : SimRow => row.movie1 == m1 && row.movie2 == m2) ∘
          fun k : Int × Int =>
            (⟨k.1, k.2, score data k.1 k.2, numPairs data k.1 k.2⟩ : SimRow))
        (simKeys data) = List.countP (fun k => k.1 == m1 && k.2 == m2) (simKeys data) := by
      apply List.countP_congr
      intro k hk
      rcases k with ⟨x, y⟩
      exact Iff.rfl
    rw [hcongr]
    exact countP_key_eq_one hnd hkey
  · intro row hrow h1 h2
    rcases mem_computeCosineSimilarity.mp hrow with ⟨⟨x, y⟩, hk, rfl⟩
    have hx : x = m1 := h1
    have hy : y = m2 := h2
    subst hx
    subst hy
    exact ⟨rfl, rfl⟩

/-- C1 witness: on the one-observation input `[(1, 2, 5, 4)]` the aggregator
emits exactly one row for the pair `(1, 2)`. -/
theorem computeCosineSimilarity_one_row_per_pair_witness :
    (computeCosineSimilarity [⟨1, 2, 5, 4⟩]).countP
        (fun row => row.movie1 == 1 && row.movie2 == 2) = 1 :=
  (computeCosineSimilarity_one_row_per_pair [⟨1, 2, 5, 4⟩] 1 2 (by decide)).1

/-! ## C3 -/

/-- Summing a per-element 0/1 indicator equals counting the predicate. -/
lemma sum_map_ite_eq_countP {α : Type} (l : List α) (q : α → Bool) (g : α → Nat)
    (hg : ∀ x ∈ l, g x = if q x then 1 else 0) :
    (l.map g).sum = l.countP q := by
  induction l with
  | nil => simp
  | cons x t ih =>
      rw [List.map_cons, List.sum_cons, List.countP_cons,
        hg x (List.mem_cons_self x t), ih (fun y hy => hg y (List.mem_cons_of_mem x hy))]
      by_cases hq : q x <;> simp [hq, Nat.add_comm]

/-- In a ratings list whose `(userID, movieID)` keys are duplicate-free, the
number of rows with a given user and movie is 1 or 0 according to whether such
a row exists. -/
lemma countP_user_movie (ratings : List Rating)
    (hnd : (ratings.map (fun r => (r.userID, r.movieID))).Nodup) (u b : Int) :
    ratings.countP (fun r => r.userID == u && r.movieID == b) =
      if ratings.any (fun r => r.userID == u && r.movieID == b) then 1 else 0 := by
  induction ratings with
  | nil => simp
  | cons x t ih =>
      rw [List.map_cons, List.nodup_cons] at hnd
      rcases hnd with ⟨hxt, hndt⟩
      rw [List.countP_cons, List.any_cons, ih hndt]
      by_cases hpx : (x.userID == u && x.movieID == b) = true
      · rcases Bool.and_eq_true_iff.mp hpx with ⟨hxu, hxb⟩
        have h0 : ¬ t.any (fun r => r.userID == u && r.movieID == b) = true := by
          rw [List.any_eq_true]
          rintro ⟨r, hr, hpr⟩
          rcases Bool.and_eq_true_iff.mp hpr with ⟨hru, hrb⟩
          apply hxt
          have hkey : (r.userID, r.movieID) = (x.userID, x.movieID) := by
            rw [beq_iff_eq] at hxu hxb hru hrb
            rw [hru, hrb, hxu, hxb]
          rw [← hkey]
          exact List.mem_map.mpr ⟨r, hr, rfl⟩
        simp [hpx, h0]
      · simp [hpx]

/-- The group of pair rows a single left-hand rating row contributes for the
target pair `(a, b)` (with `a < b`) has 1 or 0 rows: 1 exactly when the row
is a rating of `a` by a user who also rated `b`. -/
lemma countP_pair_single (ratings : List Rating) (r1 : Rating) (a b : Int) (hab : a < b)
    (hnd : (ratings.map (fun r => (r.userID, r.movieID))).Nodup) :
    List.countP (fun row : PairRow => row.movie1 == a && row.movie2 == b)
      ((ratings.filter (fun r2 =>
          r2.userID == r1.userID && decide (r1.movieID < r2.movieID))).map
        (fun r2 => (⟨r1.movieID, r2.movieID, r1.rating, r2.rating⟩ : PairRow))) =
      if r1.movieID == a && ratings.any (fun s => s.userID == r1.userID && s.movieID == b)
      then 1 else 0 := by
  rw [List.countP_map, List.countP_filter]
  by_cases hm : r1.movieID = a
  · have hcong : List.countP (fun r2 =>
        ((fun row : PairRow => row.movie1 == a && row.movie2 == b) ∘
          fun r2 => (⟨r1.movieID, r2.movieID, r1.rating, r2.rating⟩ : PairRow)) r2 &&
          (r2.userID == r1.userID && decide (r1.movieID < r2.movieID))) ratings =
        List.countP (fun r2 => r2.userID == r1.userID && r2.movieID == b) ratings := by
      apply List.countP_congr
      intro r2 hr2
      simp only [Function.comp, Bool.and_eq_true, beq_iff_eq, decide_eq_true_eq]
      constructor
      · rintro ⟨⟨hma, hmb⟩, hu, hlt⟩
        exact ⟨hu, hmb⟩
      · rintro ⟨hu, hmb⟩
        exact ⟨⟨hm, hmb⟩, hu, by rw [hm, hmb]; exact hab⟩
    rw [hcong, countP_user_movie ratings hnd r1.userID b]
    have hma : (r1.movieID == a) = true := beq_iff_eq.mpr hm
    simp [hma]
  · have h0 : List.countP (fun r2 =>
        ((fun row : PairRow => row.movie1 == a && row.movie2 == b) ∘
          fun r2 => (⟨r1.movieID, r2.movieID, r1.rating, r2.rating⟩ : PairRow)) r2 &&
          (r2.userID == r1.userID && decide (r1.movieID < r2.movieID))) ratings = 0 := by
      rw [List.countP_eq_zero]
      intro r2 hr2
      simp only [Function.comp, Bool.and_eq_true, beq_iff_eq, decide_eq_true_eq]
      rintro ⟨⟨hma, _⟩, _⟩
      exact hm hma
    have hma : (r1.movieID == a) = false := beq_eq_false_iff_ne.mpr hm
    rw [h0, hma]
    simp

/-- C3: every row emitted by the Co-Rating Pair Generator satisfies
`movie1 < movie2` (so self-pairs are excluded and the reversed orientation of
a pair never appears), and for `a < b` the pair `(a, b)` is emitted once per
co-rating user: its row count equals the number of rating rows of movie `a`
whose user also rated movie `b` — under the data model's one-row-per-(user,
movie) invariant those rows are in bijection with the co-rating users. -/
theorem moviePairs_canonical (ratings : List Rating)
    (hnd : (ratings.map (fun r => (r.userID, r.movieID))).Nodup)
    (a b : Int) (hab : a < b) :
    (∀ p ∈ moviePairs ratings, p.movie1 < p.movie2) ∧
    (moviePairs ratings).countP (fun p => p.movie1 == b && p.movie2 == a) = 0 ∧
    (moviePairs ratings).countP (fun p => p.movie1 == a && p.movie2 == b) =
      ratings.countP (fun r => r.movieID == a &&
        ratings.any (fun s => s.userID == r.userID && s.movieID == b)) := by
  have horder : ∀ p ∈ moviePairs ratings, p.movie1 < p.movie2 := by
    intro p hp
    simp only [moviePairs, List.mem_flatMap, List.mem_map, List.mem_filter,
      Bool.and_eq_true, beq_iff_eq, decide_eq_true_eq] at hp
    rcases hp with ⟨r1, hr1, r2, ⟨hr2mem, hu, hlt⟩, rfl⟩
    exact hlt
  refine ⟨horder, ?_, ?_⟩
  · rw [List.countP_eq_zero]
    intro p hp
    simp only [Bool.and_eq_true, beq_iff_eq]
    rintro ⟨h1, h2⟩
    have hlt := horder p hp
    rw [h1, h2] at hlt
    exact absurd hab (not_lt.mpr (le_of_lt hlt))
  · rw [moviePairs, List.countP_flatMap]
    exact sum_map_ite_eq_countP ratings _ _
      (fun r1 _ => countP_pair_single ratings r1 a b hab hnd)

/-- C3 witness: for ratings {(u1, m10, 5), (u1, m20, 4), (u2, m10, 3)} every
emitted pair is canonically ordered, the reversed pair (20, 10) never appears,
and (10, 20) appears once — for the single co-rating user u1. -/
theorem moviePairs_canonical_witness :
    (∀ p ∈ moviePairs [⟨1, 10, 5⟩, ⟨1, 20, 4⟩, ⟨2, 10, 3⟩], p.movie1 < p.movie2) ∧
    (moviePairs [⟨1, 10, 5⟩, ⟨1, 20, 4⟩, ⟨2, 10, 3⟩]).countP
        (fun p => p.movie1 == 20 && p.movie2 == 10) = 0 ∧
    (moviePairs [⟨1, 10, 5⟩, ⟨1, 20, 4⟩, ⟨2, 10, 3⟩]).countP
        (fun p => p.movie1 == 10 && p.movie2 == 20) =
      ([⟨1, 10, 5⟩, ⟨1, 20, 4⟩, ⟨2, 10, 3⟩] : List Rating).countP
        (fun r => r.movieID == 10 &&
          ([⟨1, 10, 5⟩, ⟨1, 20, 4⟩, ⟨2, 10, 3⟩] : List Rating).any
            (fun s => s.userID == r.userID && s.movieID == 20)) :=
  moviePairs_canonical [⟨1, 10, 5⟩, ⟨1, 20, 4⟩, ⟨2, 10, 3⟩] (by decide) 10 20 (by decide)

/-! ## C7 -/

/-- Cauchy-Schwarz for the two rating columns of a list of pair rows. -/
lemma list_inner_sq_le (l : List PairRow) :
    (((l.map (fun r => r.rating1 * r.rating2)).sum) ^ 2 : Int) ≤
      ((l.map (fun r => r.rating1 * r.rating1)).sum) *
        ((l.map (fun r => r.rating2 * r.rating2)).sum) := by
  induction l with
  | nil => simp
  | cons p t ih =>
      simp only [List.map_cons, List.sum_cons]
      have hA : (0 : Int) ≤ (t.map (fun r => r.rating1 * r.rating1)).sum :=
        List.sum_nonneg (by
          intro z hz
          rcases List.mem_map.mp hz with ⟨s, hs, rfl⟩
          exact mul_self_nonneg _)
      have hB : (0 : Int) ≤ (t.map (fun r => r.rating2 * r.rating2)).sum :=
        List.sum_nonneg (by
          intro z hz
          rcases List.mem_map.mp hz with ⟨s, hs, rfl⟩
          exact mul_self_nonneg _)
      rcases eq_or_lt_of_le hB with hB0 | hBpos
      · have hS2 : ((t.map (fun r => r.rating1 * r.rating2)).sum) ^ 2 ≤ 0 := by
          nlinarith [ih]
        have hS : (t.map (fun r => r.rating1 * r.rating2)).sum = 0 :=
          (pow_eq_zero_iff two_ne_zero).mp
            (le_antisymm hS2 (sq_nonneg _))
        rw [hS, ← hB0]
        nlinarith [mul_nonneg hA (mul_self_nonneg p.rating2)]
      · nlinarith [ih, hBpos, hA,
          sq_nonneg (p.rating1 * (t.map (fun r => r.rating2 * r.rating2)).sum -
            p.rating2 * (t.map (fun r => r.rating1 * r.rating2)).sum),
          mul_nonneg (sq_nonneg p.rating2)
            (sub_nonneg.mpr ih),
          mul_nonneg (le_of_lt hBpos) (sub_nonneg.mpr ih)]

/-- The sums of squared ratings of a group are nonnegative. -/
lemma sumXX_nonneg (data : List PairRow) (m1 m2 : Int) : 0 ≤ sumXX data m1 m2 :=
  List.sum_nonneg (by
    intro z hz
    rcases List.mem_map.mp hz with ⟨s, hs, rfl⟩
    exact mul_self_nonneg _)

/-- The sums of squared ratings of a group are nonnegative. -/
lemma sumYY_nonneg (data : List PairRow) (m1 m2 : Int) : 0 ≤ sumYY data m1 m2 :=
  List.sum_nonneg (by
    intro z hz
    rcases List.mem_map.mp hz with ⟨s, hs, rfl⟩
    exact mul_self_nonneg _)

/-- Whenever a group's numerator is nonnegative, its cosine score lies in
`[0, 1]`: the zero-guard branch gives 0, and otherwise Cauchy-Schwarz bounds
the numerator by the denominator. -/
lemma score_nonneg_le_one (data : List PairRow) (m1 m2 : Int)
    (hnum : 0 ≤ numerator data m1 m2) :
    0 ≤ score data m1 m2 ∧ score data m1 m2 ≤ 1 := by
  have hxx := sumXX_nonneg data m1 m2
  have hyy := sumYY_nonneg data m1 m2
  have hcs : (numerator data m1 m2) ^ 2 ≤ sumXX data m1 m2 * sumYY data m1 m2 :=
    list_inner_sq_le (pairObs data m1 m2)
  rw [score]
  by_cases hd : denominator data m1 m2 ≠ 0
  · rw [if_pos hd]
    have hdnn : 0 ≤ denominator data m1 m2 :=
      mul_nonneg (Real.sqrt_nonneg _) (Real.sqrt_nonneg _)
    have hdpos : 0 < denominator data m1 m2 := lt_of_le_of_ne hdnn (Ne.symm hd)
    constructor
    · exact div_nonneg (by exact_mod_cast hnum) hdnn
    · rw [div_le_one hdpos, denominator,
        ← Real.sqrt_mul (by exact_mod_cast hxx)]
      calc ((numerator data m1 m2 : Int) : Real)
          = Real.sqrt (((numerator data m1 m2 : Int) : Real) ^ 2) :=
            (Real.sqrt_sq (by exact_mod_cast hnum)).symm
        _ ≤ Real.sqrt ((sumXX data m1 m2 : Real) * (sumYY data m1 m2 : Real)) :=
            Real.sqrt_le_sqrt (by exact_mod_cast hcs)
  · rw [if_neg hd]
    norm_num

/-- C7: when every rating in the co-rating observation set is an integer
between 1 and 5, every score emitted by the Similarity Aggregator lies in
`[0, 1]`. -/
theorem scores_in_unit_interval (data : List PairRow)
    (h : ∀ r ∈ data, 1 ≤ r.rating1 ∧ r.rating1 ≤ 5 ∧ 1 ≤ r.rating2 ∧ r.rating2 ≤ 5)
    (row : SimRow) (hrow : row ∈ computeCosineSimilarity data) :
    0 ≤ row.score ∧ row.score ≤ 1 := by
  rcases mem_computeCosineSimilarity.mp hrow with ⟨k, hk, rfl⟩
  apply score_nonneg_le_one
  show 0 ≤ ((pairObs data k.1 k.2).map (fun r => r.rating1 * r.rating2)).sum
  apply List.sum_nonneg
  intro z hz
  rcases List.mem_map.mp hz with ⟨s, hs, rfl⟩
  have hsd : s ∈ data := List.mem_of_mem_filter hs
  rcases h s hsd with ⟨h1, _, h2, _⟩
  exact mul_nonneg (le_trans zero_le_one h1) (le_trans zero_le_one h2)

/-- C7 witness: on the valid one-observation input `[(1, 2, 5, 4)]` the
emitted row's score lies in `[0, 1]`. -/
theorem scores_in_unit_interval_witness :
    0 ≤ (⟨1, 2, score [⟨1, 2, 5, 4⟩] 1 2, numPairs [⟨1, 2, 5, 4⟩] 1 2⟩ : SimRow).score ∧
      (⟨1, 2, score [⟨1, 2, 5, 4⟩] 1 2, numPairs [⟨1, 2, 5, 4⟩] 1 2⟩ : SimRow).score ≤ 1 :=
  scores_in_unit_interval [⟨1, 2, 5, 4⟩] (by decide)
    ⟨1, 2, score [⟨1, 2, 5, 4⟩] 1 2, numPairs [⟨1, 2, 5, 4⟩] 1 2⟩
    (mem_computeCosineSimilarity.mpr ⟨(1, 2), by decide, rfl⟩)

/-! ## C8 -/

/-- C8: when every co-rating observation of a pair present in the input gives
both movies the same (positive integer) rating, the aggregator emits a row
for that pair with score exactly 1. -/
theorem identical_ratings_score_one (data : List PairRow) (m1 m2 : Int)
    (hmem : (m1, m2) ∈ data.map (fun r => (r.movie1, r.movie2)))
    (hid : ∀ r ∈ pairObs data m1 m2, r.rating1 = r.rating2)
    (hpos : ∀ r ∈ data, 1 ≤ r.rating1) :
    ∃ row ∈ computeCosineSimilarity data,
      row.movie1 = m1 ∧ row.movie2 = m2 ∧ row.score = 1 := by
  have hkey : (m1, m2) ∈ simKeys data := by
    rw [simKeys, List.mem_dedup]
    exact hmem
  refine ⟨⟨m1, m2, score data m1 m2, numPairs data m1 m2⟩,
    mem_computeCosineSimilarity.mpr ⟨(m1, m2), hkey, rfl⟩, rfl, rfl, ?_⟩
  have heqXY : numerator data m1 m2 = sumXX data m1 m2 :=
    congrArg List.sum (List.map_congr_left (fun r hr => by rw [hid r hr]))
  have heqYY : sumYY data m1 m2 = sumXX data m1 m2 :=
    congrArg List.sum (List.map_congr_left (fun r hr => by rw [hid r hr]))
  have hne : pairObs data m1 m2 ≠ [] := pairObs_ne_nil_of_mem_simKeys hkey
  have hSpos : 0 < sumXX data m1 m2 := by
    rcases List.exists_cons_of_ne_nil hne with ⟨p, t, hpt⟩
    have hp1 : 1 ≤ p.rating1 :=
      hpos p (List.mem_of_mem_filter (hpt ▸ List.mem_cons_self p t))
    have hp2 : (1 : Int) ≤ p.rating1 * p.rating1 := by nlinarith
    have ht : 0 ≤ (t.map (fun r => r.rating1 * r.rating1)).sum :=
      List.sum_nonneg (by
        intro z hz
        rcases List.mem_map.mp hz with ⟨s, _, rfl⟩
        exact mul_self_nonneg _)
    show (0 : Int) < ((pairObs data m1 m2).map (fun r => r.rating1 * r.rating1)).sum
    rw [hpt, List.map_cons, List.sum_cons]
    linarith
  have hd : denominator data m1 m2 = ((sumXX data m1 m2 : Int) : Real) := by
    rw [denominator, heqYY]
    exact Real.mul_self_sqrt (by exact_mod_cast le_of_lt hSpos)
  have hdne : denominator data m1 m2 ≠ 0 := by
    rw [hd]
    exact_mod_cast ne_of_gt hSpos
  rw [score, if_pos hdne, hd, heqXY]
  exact div_self (by exact_mod_cast ne_of_gt hSpos)

/-- C8 witness: with the single co-rating observation `(1, 2, 5, 5)` rating
both movies identically, the emitted row for `(1, 2)` has score 1. -/
theorem identical_ratings_score_one_witness :
    ∃ row ∈ computeCosineSimilarity [⟨1, 2, 5, 5⟩],
      row.movie1 = 1 ∧ row.movie2 = 2 ∧ row.score = 1 :=
  identical_ratings_score_one [⟨1, 2, 5, 5⟩] 1 2 (by decide) (by decide) (by decide)

/-! ## C2 -/

/-- Sorting by score descending yields a list that is pairwise descending in
score. -/
lemma sorted_score_mergeSort (l : List SimRow) :
    List.Pairwise (fun x y : SimRow => y.score ≤ x.score)
      (l.mergeSort (fun a b => decide (b.score ≤ a.score))) := by
  have htrans : ∀ (a b c : SimRow), decide (b.score ≤ a.score) = true →
      decide (c.score ≤ b.score) = true → decide (c.score ≤ a.score) = true := by
    intro a b c hab hbc
    rw [decide_eq_true_eq] at hab hbc ⊢
    exact le_trans hbc hab
  have htotal : ∀ (a b : SimRow),
      (decide (b.score ≤ a.score) || decide (a.score ≤ b.score)) = true := by
    intro a b
    rw [Bool.or_eq_true, decide_eq_true_eq, decide_eq_true_eq]
    exact le_total b.score a.score
  have hs := @List.sorted_mergeSort SimRow
    (fun a b => decide (b.score ≤ a.score)) htrans htotal l
  exact hs.imp (fun hab => of_decide_eq_true hab)

/-- C2: the Query Engine's result is an at-most-10-element sequence, sorted
descending by score, containing only similarity rows that touch the target
and strictly exceed both thresholds; the kept rows together with some
left-over rows form exactly the qualifying rows, and every left-over row
scores no higher than every kept row — so only rows outside the top 10 by
score are excluded. -/
theorem results_spec (sims : List SimRow) (movieID : Int) (sT cT : Real) :
    (∀ r, r ∈ filteredResults sims movieID sT cT ↔
        r ∈ sims ∧ (r.movie1 = movieID ∨ r.movie2 = movieID) ∧
          sT < r.score ∧ cT < (r.numPairs : Real)) ∧
    (results sims movieID sT cT).length =
      min 10 (filteredResults sims movieID sT cT).length ∧
    List.Pairwise (fun x y : SimRow => y.score ≤ x.score) (results sims movieID sT cT) ∧
    ∃ rest, (results sims movieID sT cT ++ rest).Perm (filteredResults sims movieID sT cT) ∧
      ∀ x ∈ rest, ∀ y ∈ results sims movieID sT cT, x.score ≤ y.score := by
  refine ⟨?_, ?_, ?_, ?_⟩
  · intro r
    rw [filteredResults, List.mem_filter]
    simp only [Bool.and_eq_true, decide_eq_true_eq]
    tauto
  · rw [results, List.length_take, List.length_mergeSort]
  · exact List.Pairwise.sublist (List.take_sublist _ _) (sorted_score_mergeSort _)
  · refine ⟨((filteredResults sims movieID sT cT).mergeSort
        (fun a b => decide (b.score ≤ a.score))).drop 10, ?_, ?_⟩
    · show ((((filteredResults sims movieID sT cT).mergeSort
          (fun a b => decide (b.score ≤ a.score))).take 10) ++
          (((filteredResults sims movieID sT cT).mergeSort
            (fun a b => decide (b.score ≤ a.score))).drop 10)).Perm
          (filteredResults sims movieID sT cT)
      rw [List.take_append_drop]
      exact List.mergeSort_perm _ _
    · intro x hx y hy
      have hsplit : List.Pairwise (fun a b : SimRow => b.score ≤ a.score)
          ((((filteredResults sims movieID sT cT).mergeSort
              (fun a b => decide (b.score ≤ a.score))).take 10) ++
            (((filteredResults sims movieID sT cT).mergeSort
              (fun a b => decide (b.score ≤ a.score))).drop 10)) := by
        rw [List.take_append_drop]
        exact sorted_score_mergeSort _
      rcases List.pairwise_append.mp hsplit with ⟨_, _, hcross⟩
      exact hcross y hy x hx

/-! ## C6 -/

/-- C6 counterexample to the claim as stated: an out-of-domain (but numeric)
query itemID is NOT surfaced as an input-validation failure — the Query
Engine runs and reports the very same `noResults` outcome that a valid
itemID with no qualifying rows produces.  Movie 999 touches no similarity
row, yet the outcome equals the one of the legitimate empty-result query
below, rather than a distinguished validation failure. -/
theorem runQuery_out_of_domain_not_validated :
    runQuery [⟨1, 2, 1, 60⟩] (some 999) = QueryOutcome.noResults ∧
    runQuery [] (some 1) = QueryOutcome.noResults := by
  constructor
  · have hF : filteredResults [⟨1, 2, 1, 60⟩] 999 0.97 50.0 = [] := by
      apply List.filter_eq_nil_iff.mpr
      intro r hr
      rw [List.mem_singleton] at hr
      subst hr
      simp only [Bool.and_eq_true, decide_eq_true_eq]
      rintro ⟨⟨hor, _⟩, _⟩
      rcases hor with h | h <;> norm_num at h
    simp [runQuery, results, hF]
  · have hF : filteredResults [] 1 0.97 50.0 = [] := rfl
    simp [runQuery, results, hF]

/-- C6 amended: only a NON-NUMERIC query itemID (the unparseable input,
modelled as `none`) is surfaced as the distinguished invalid-input outcome
before the engine runs; a numeric but out-of-domain itemID — one touching no
similarity row — is not validated at all: the engine runs and returns the
ordinary empty-result outcome. -/
theorem runQuery_validation (sims : List SimRow) (movieID : Int)
    (hdom : ∀ r ∈ sims, r.movie1 ≠ movieID ∧ r.movie2 ≠ movieID) :
    runQuery sims none = QueryOutcome.invalidInput ∧
    runQuery sims (some movieID) = QueryOutcome.noResults := by
  refine ⟨rfl, ?_⟩
  have hF : filteredResults sims movieID 0.97 50.0 = [] := by
    apply List.filter_eq_nil_iff.mpr
    intro r hr
    simp only [Bool.and_eq_true, decide_eq_true_eq]
    rintro ⟨⟨hor, _⟩, _⟩
    rcases hdom r hr with ⟨h1, h2⟩
    rcases hor with h | h
    · exact h1 h
    · exact h2 h
  simp [runQuery, results, hF]

/-- C6 witness: non-numeric input gives the invalid-input outcome, and the
out-of-domain ID 999 gives the empty-result outcome on a one-row table. -/
theorem runQuery_validation_witness :
    runQuery [⟨1, 2, 1, 60⟩] none = QueryOutcome.invalidInput ∧
    runQuery [⟨1, 2, 1, 60⟩] (some 999) = QueryOutcome.noResults :=
  runQuery_validation [⟨1, 2, 1, 60⟩] 999 (by decide)

end MovieRec
